import Mathlib

/-!
Shallow embedding of the Flipkart QWTT stock-analysis pipeline (src/main.py)
and proofs about it.

Tables are modelled as Lean lists; pandas DataFrames become lists of rows.
Machine details that the verified claims do not depend on are modelled as
follows (each noted again at the definition it concerns):
* Python/pandas strings are modelled by Lean String; the string helpers
  (lower-casing, trimming, substring search) are reimplemented over the
  underlying character list so that concrete runs reduce inside the kernel.
  Lower-casing is ASCII (the inputs of interest are ASCII).
* float64 cells are modelled by Rat.  Every concrete value appearing in the
  claims (0, 1, 2.5, 10.0, ...) is exactly representable in float64 and the
  arithmetic performed on them (products and small sums) is exact, so Rat
  agrees with the float semantics on everything stated here.
* pd.to_numeric(errors="coerce") is modelled on typed cells: numeric cells
  pass through, non-numeric cells coerce to 0 (via the NaN-then-fillna(0)
  path of the source).  Parsing of numeric text such as "2.5" is not
  modelled; no claim involves numeric text cells.
-/

namespace FlipkartQWTT

/-- ASCII lower-casing of one character, as Python str.lower does on ASCII. -/
def charLower (c : Char) : Char :=
  if 'A' ≤ c ∧ c ≤ 'Z' then Char.ofNat (c.toNat + 32) else c

/-- Python s.lower() (ASCII fragment). -/
def lowerStr (s : String) : String := String.mk (s.data.map charLower)

/-- Whitespace characters stripped by Python str.strip / matched by the
regex in remove_blank_rows (ASCII fragment of the \s class). -/
def isWsChar (c : Char) : Bool := c == ' ' || c == '\t' || c == '\n' || c == '\r'

/-- Python s.strip(). -/
def trimStr (s : String) : String :=
  String.mk (((s.data.dropWhile isWsChar).reverse.dropWhile isWsChar).reverse)

/-- Python substring test: needle in hay. -/
def strContainsSub (hay needle : String) : Bool :=
  hay.data.tails.any (fun t => needle.data.isPrefixOf t)

/-- main.py line 93: .str.replace on the inventory sku column removes every
stray backtick character (code point 96). -/
def stripStray (s : String) : String :=
  String.mk (s.data.filter (fun c => c.toNat != 96))

/-- Values a product-master (Excel) cell can hold: text, a number, or NaN
(missing).  Floats are modelled by Rat; see the header comment. -/
inductive MVal where
  | str (s : String)
  | num (q : Rat)
  | nan
deriving DecidableEq, Repr

/-- Values a cell of the final report can hold.  int models an int64 cell,
rat a float64 cell, nan a missing value. -/
inductive Cell where
  | str (s : String)
  | int (n : Int)
  | rat (q : Rat)
  | nan
deriving DecidableEq, Repr

/-- One shipped-order record (the columns main.py reads). -/
structure OrderRec where
  marketplace : String
  sku : String
  quantity : Int
deriving DecidableEq, Repr

/-- One inventory record (the columns main.py reads). -/
structure InvRec where
  sku : String
  old_quantity : Int
deriving DecidableEq, Repr

/-- The purchase-master table: a dynamic header list and rows of cells, each
row aligned with the headers (a DataFrame row has a cell, possibly NaN, in
every column). -/
structure MasterTable where
  headers : List String
  rows : List (List MVal)
deriving DecidableEq, Repr

/-- Cell of a master row under a given column name (NaN when the column is
not among the headers, which the source never exercises). -/
def cellAt (t : MasterTable) (row : List MVal) (c : String) : MVal :=
  row.getD (t.headers.findIdx (fun h => h == c)) .nan

/-- Python str() of a master cell, as used by .astype(str) on the key
column.  NaN stringifies to "nan" (so .dropna after .astype(str) keeps it,
exactly as in the source); numbers use the Lean Rat printer, a detail no
claim depends on (key cells in every claim are text). -/
def strOfMVal : MVal → String
  | .str s => s
  | .num q => toString q
  | .nan => "nan"

/-- pd.to_numeric(errors="coerce") followed by .fillna(0), on a possibly
missing cell: numbers pass through, everything else becomes 0. -/
def toNumeric0 : Option MVal → Rat
  | some (.num q) => q
  | _ => 0

/-- Code-point lexicographic comparison of character lists — the order in
which Python (and hence pandas groupby sort=True over string keys)
compares strings. -/
def charListLe : List Char → List Char → Bool
  | [], _ => true
  | _ :: _, [] => false
  | a :: as, b :: bs =>
    if a.toNat < b.toNat then true
    else if b.toNat < a.toNat then false
    else charListLe as bs

/-- Code-point lexicographic order on strings. -/
def strLe (s t : String) : Bool := charListLe s.data t.data

/-- pandas groupby(key).sum() with the default sort=True: one output row
per distinct key, keys in ascending order, the measure summed per group. -/
def groupSum (l : List α) (key : α → String) (m : α → Int) : List (String × Int) :=
  (List.insertionSort (fun a b => strLe a b = true) ((l.map key).dedup)).map
    (fun k => (k, ((l.filter (fun x => key x == k)).map m).sum))

/-- Series.map through a key-value table: the value at the first entry with
the given key. -/
def mapLookup (tbl : List (String × Int)) (k : String) : Option Int :=
  (tbl.find? (fun p => p.1 == k)).map Prod.snd

/-- drop_duplicates(keep="first") on a keyed list: keep each key's first
occurrence, in source order (seen accumulates the keys already kept). -/
def dedupByKeyAux (seen : List String) : List (String × β) → List (String × β)
  | [] => []
  | (k, v) :: rest =>
    if seen.contains k then dedupByKeyAux seen rest
    else (k, v) :: dedupByKeyAux (k :: seen) rest

/-- drop_duplicates(keep="first") starting from no keys seen. -/
def dedupByKey (l : List (String × β)) : List (String × β) := dedupByKeyAux [] l

/-- main.py line 111: the master SKU column is the first header containing
"easycomsku" case-insensitively. -/
def pmSkuCol (headers : List String) : Option String :=
  headers.find? (fun c => strContainsSub (lowerStr c) "easycomsku")

/-- main.py line 112: first header containing "brand manager". -/
def pmManagerCol (headers : List String) : Option String :=
  headers.find? (fun c => strContainsSub (lowerStr c) "brand manager")

/-- main.py line 113: first header equal to "brand" case-insensitively. -/
def pmBrandCol (headers : List String) : Option String :=
  headers.find? (fun c => lowerStr c == "brand")

/-- main.py line 114: first header containing "product". -/
def pmProductCol (headers : List String) : Option String :=
  headers.find? (fun c => strContainsSub (lowerStr c) "product")

/-- main.py line 115: first header containing "fns". -/
def pmFnsCol (headers : List String) : Option String :=
  headers.find? (fun c => strContainsSub (lowerStr c) "fns")

/-- main.py line 116: first header containing "vendor". -/
def pmVendorCol (headers : List String) : Option String :=
  headers.find? (fun c => strContainsSub (lowerStr c) "vendor")

/-- main.py line 117: first header equal to one of "cp", "cost",
"cost price" case-insensitively. -/
def pmCpCol (headers : List String) : Option String :=
  headers.find? (fun c =>
    lowerStr c == "cp" || lowerStr c == "cost" || lowerStr c == "cost price")

/-- main.py lines 83-84: keep only the orders whose Marketplace is the
literal "Flipkart". -/
def flipkartOrders (shipped : List OrderRec) : List OrderRec :=
  shipped.filter (fun o => o.marketplace == "Flipkart")

/-- main.py lines 86-90: sales aggregation, one row per order SKU (raw, no
normalization) with the quantities summed. -/
def salesAgg (shipped : List OrderRec) : List (String × Int) :=
  groupSum (flipkartOrders shipped) (fun o => o.sku) (fun o => o.quantity)

/-- main.py line 93: backtick removal on the inventory sku column. -/
def invNormalized (inv : List InvRec) : List InvRec :=
  inv.map (fun r => { r with sku := stripStray r.sku })

/-- main.py lines 94-98: inventory aggregation over the backtick-stripped
sku, old_quantity summed. -/
def invAgg (inv : List InvRec) : List (String × Int) :=
  groupSum (invNormalized inv) (fun r => r.sku) (fun r => r.old_quantity)

/-- One row of the working table after the sales merge of lines 101-106:
inventory-anchored, with the sales quantity looked up by the aggregated
inventory key and defaulting to 0 (fillna). -/
structure WorkRow where
  sku : String
  invQty : Int
  salesQty : Int
deriving DecidableEq, Repr

/-- main.py lines 94-106: the inventory-anchored working table. -/
def workTable (shipped : List OrderRec) (inv : List InvRec) : List WorkRow :=
  (invAgg inv).map (fun p => ⟨p.1, p.2, (mapLookup (salesAgg shipped) p.1).getD 0⟩)

/-- A working-table row after the enrichment of lines 122-154.  The
enrichment fields hold none when no deduplicated master row matched (NaN in
the frame); whether each column exists at all is recorded separately in
enrichCols, mirroring the conditional column creation of the source. -/
structure ERow where
  sku : String
  invQty : Int
  salesQty : Int
  manager : Option MVal := none
  brand : Option MVal := none
  productName : Option MVal := none
  fns : Option MVal := none
  vendorSku : Option MVal := none
  cp : Rat := 0
deriving DecidableEq, Repr

/-- Columns of the working frame after lines 122-154, in creation order:
the base columns always, each enrichment column exactly when the master SKU
column and that role's column are resolved (resolved header names are
non-empty, so Python truthiness agrees with option matching). -/
def enrichCols (pm : MasterTable) : List String :=
  match pmSkuCol pm.headers with
  | none => ["sku", "Inventory QTY", "Sales QTY"]
  | some _ =>
    ["sku", "Inventory QTY", "Sales QTY"]
    ++ (match pmManagerCol pm.headers with | some _ => ["Manager"] | none => [])
    ++ (match pmBrandCol pm.headers with | some _ => ["Brand"] | none => [])
    ++ (match pmProductCol pm.headers with | some _ => ["Product Name"] | none => [])
    ++ (match pmFnsCol pm.headers with | some _ => ["FNS"] | none => [])
    ++ (match pmVendorCol pm.headers with | some _ => ["Vendor SKU"] | none => [])
    ++ (match pmCpCol pm.headers with | some _ => ["CP"] | none => [])

/-- main.py lines 122-154 on one working row: the master table is keyed by
its stripped, stringified SKU column and deduplicated first-wins (lines
123-131); the row's sku is stripped (line 133) and each resolved role's
cell is looked up in the deduplicated master; CP additionally goes through
to_numeric/fillna(0) (lines 150-154). -/
def enrichRow (pm : MasterTable) (w : WorkRow) : ERow :=
  match pmSkuCol pm.headers with
  | none => { sku := w.sku, invQty := w.invQty, salesQty := w.salesQty }
  | some skuCol =>
    let pmU := dedupByKey (pm.rows.map (fun r => (trimStr (strOfMVal (cellAt pm r skuCol)), r)))
    let hit := pmU.find? (fun p => p.1 == trimStr w.sku)
    let look : String → Option MVal := fun col => hit.map (fun p => cellAt pm p.2 col)
    { sku := w.sku, invQty := w.invQty, salesQty := w.salesQty,
      manager := (pmManagerCol pm.headers).bind look,
      brand := (pmBrandCol pm.headers).bind look,
      productName := (pmProductCol pm.headers).bind look,
      fns := (pmFnsCol pm.headers).bind look,
      vendorSku := (pmVendorCol pm.headers).bind look,
      cp := match pmCpCol pm.headers with
            | some c => toNumeric0 (look c)
            | none => 0 }

/-- Conversion of an enrichment lookup result to a report cell (NaN for no
match or a NaN master cell). -/
def ovalCell : Option MVal → Cell
  | none => .nan
  | some (.str s) => .str s
  | some (.num q) => .rat q
  | some .nan => .nan

/-- The report cell an enriched row holds under a given column name.  The
sku column is text, the quantity columns int64, CP float64 (hence .rat). -/
def ERow.cellOf (r : ERow) (c : String) : Cell :=
  if c = "sku" then .str r.sku
  else if c = "Inventory QTY" then .int r.invQty
  else if c = "Sales QTY" then .int r.salesQty
  else if c = "Manager" then ovalCell r.manager
  else if c = "Brand" then ovalCell r.brand
  else if c = "Product Name" then ovalCell r.productName
  else if c = "FNS" then ovalCell r.fns
  else if c = "Vendor SKU" then ovalCell r.vendorSku
  else if c = "CP" then .rat r.cp
  else .nan

/-- Python int() of a float value: truncation toward zero, which on a
rational is num tdiv den. -/
def intTrunc (q : Rat) : Int := q.num.tdiv (q.den : Int)

/-- main.py lines 162-168: the Grand Total cell for a column.  Numeric
columns get int() of the column sum (the quantity columns are int64, so
int() is the identity on their sums; CP is float64, so its total is
truncated and, after the concat back into the float64 CP column, is a
float cell again, hence .rat of the truncated integer); other columns get
the empty string, and sku is overwritten with the label. -/
def totalCell (rows : List ERow) (c : String) : Cell :=
  if c = "sku" then .str "Grand Total"
  else if c = "Inventory QTY" then .int ((rows.map (fun r => r.invQty)).sum)
  else if c = "Sales QTY" then .int ((rows.map (fun r => r.salesQty)).sum)
  else if c = "CP" then .rat ((intTrunc ((rows.map (fun r => r.cp)).sum) : Int) : Rat)
  else .str ""

/-- main.py line 172-176: the fixed output column order. -/
def FINAL_COLS : List String :=
  ["sku", "Manager", "Brand", "Product Name", "FNS", "Vendor SKU",
   "Inventory QTY", "Sales QTY", "CP"]

/-- The final report: a column-name list and rows of cells aligned with
it. -/
structure Report where
  cols : List String
  rows : List (List Cell)
deriving DecidableEq, Repr

/-- Cell of a row under a column name (first matching column). -/
def getCell (cols : List String) (row : List Cell) (c : String) : Cell :=
  (((cols.zip row).find? (fun p => p.1 == c)).map Prod.snd).getD .nan

/-- Numeric value of a cell (0 for text/NaN; the multiplication at line 181
only ever touches the float64 CP and int64 Sales QTY columns, which hold no
NaN by construction). -/
def cellRat : Cell → Rat
  | .int n => (n : Rat)
  | .rat q => q
  | _ => 0

/-- main.py line 181 for one row: the derived CP As Per Qty cell, the
product of the row's CP and Sales QTY cells (float64). -/
def cpqCell (cols : List String) (row : List Cell) : Cell :=
  .rat (cellRat (getCell cols row "CP") * cellRat (getCell cols row "Sales QTY"))

/-- main.py line 157: the enriched working table sorted ascending by Sales
QTY.  pandas sort_values is called with its default kind (quicksort), which
does not guarantee the order of ties; the model fixes the tie order to the
stable one, and no theorem below about the pipeline depends on the order of
ties. -/
def sortedRows (shipped : List OrderRec) (inv : List InvRec) (pm : MasterTable) : List ERow :=
  List.insertionSort (fun a b => a.salesQty ≤ b.salesQty)
    ((workTable shipped inv).map (enrichRow pm))

/-- main.py line 178: the fixed column order restricted to the columns the
working frame actually has. -/
def finalCols (pm : MasterTable) : List String :=
  FINAL_COLS.filter (fun c => (enrichCols pm).contains c)

/-- The report produced when line 181 does not raise: data rows in sorted
order, then the Grand Total row (lines 162-169), projected to the final
column order (line 178), each row extended with CP As Per Qty (line 181). -/
def successReport (shipped : List OrderRec) (inv : List InvRec) (pm : MasterTable) : Report :=
  { cols := finalCols pm ++ ["CP As Per Qty"],
    rows :=
      ((sortedRows shipped inv pm).map (fun r => (finalCols pm).map (fun c => ERow.cellOf r c))
        ++ [(finalCols pm).map (fun c => totalCell (sortedRows shipped inv pm) c)]).map
        (fun row => row ++ [cpqCell (finalCols pm) row]) }

/-- main.py lines 80-183, process_inventory_data: filter and aggregate
(83-106), enrich (111-154), sort (157), append the Grand Total row
(162-169), project (172-178), then add CP As Per Qty (181).  Line 181
reads the CP column unconditionally, so when CP was never created (no
master SKU column, or no CP column, was resolved) the function raises
KeyError, modelled as the error result. -/
def process_inventory_data (shipped : List OrderRec) (inv : List InvRec)
    (pm : MasterTable) : Except String Report :=
  if (finalCols pm).contains "CP" then .ok (successReport shipped inv pm)
  else .error "KeyError: CP"

/-- The report of a pipeline run, with an empty placeholder for the run
that raised (used only to state theorems; every theorem about report
contents either supplies the success hypothesis or is vacuous there). -/
def reportOf (e : Except String Report) : Report :=
  match e with
  | .ok r => r
  | .error _ => ⟨[], []⟩

/-- The trailing row of a report (the Grand Total row of a pipeline
report). -/
def lastRowOf (rep : Report) : List Cell := rep.rows.getLastD []

/-- Numeric value of the named field of the report's trailing total row. -/
def totalVal (rep : Report) (c : String) : Rat := cellRat (getCell rep.cols (lastRowOf rep) c)

/-- Sum of the numeric values of the named field over the non-total rows
of a report. -/
def dataColSum (rep : Report) (c : String) : Rat :=
  (rep.rows.dropLast.map (fun row => cellRat (getCell rep.cols row c))).sum

/-- Whether both the master SKU column and a CP column resolve — exactly
the condition under which line 151 creates the CP column and line 181 does
not raise. -/
def cpResolved (pm : MasterTable) : Bool :=
  (pmSkuCol pm.headers).isSome && (pmCpCol pm.headers).isSome

/-- The report of one full pipeline run (empty placeholder when the run
raised). -/
def pipelineReport (shipped : List OrderRec) (inv : List InvRec) (pm : MasterTable) : Report :=
  reportOf (process_inventory_data shipped inv pm)

/-- Scenario master table: SKU and CP columns resolve, no master rows. -/
def mtCP : MasterTable := ⟨["EasyComSKU", "CP"], []⟩

/-- Scenario master table: one row per SKU with a unit CP. -/
def mtCPunit : MasterTable :=
  ⟨["EasyComSKU", "CP"], [[.str "A", .num 1], [.str "B", .num 1]]⟩

/-- Scenario master table of spec Scenario 2: two rows for the same SKU
with different Brand values. -/
def mtBrandDup : MasterTable :=
  ⟨["EasyComSKU", "Brand", "CP"],
   [[.str "A1", .str "X", .num 1], [.str "A1", .str "Y", .num 2]]⟩

/-- Scenario master table whose key cell carries surrounding whitespace. -/
def mtBrandWs : MasterTable :=
  ⟨["EasyComSKU", "Brand", "CP"], [[.str " A1 ", .str "X", .num 1]]⟩

/-- Scenario master table of spec Scenario 3: no header matches any role
heuristic. -/
def mtNoRoles : MasterTable := ⟨["foo"], []⟩

/-- A report cell is blank when it is missing or its text matches the
whitespace-only regex of line 72 (numeric cells never match). -/
def cellBlank : Cell → Bool
  | .nan => true
  | .str s => s.data.all isWsChar
  | _ => false

/-- A row is dropped by dropna(how="any") when any of its cells is blank
after the whitespace-to-NaN replacement. -/
def rowBlank (row : List Cell) : Bool := row.any cellBlank

/-- main.py lines 68-74, remove_blank_rows: an empty frame is returned as
is; otherwise every row but the last is kept only if it has no blank cell,
and the last row is reattached unconditionally. -/
def remove_blank_rows (df : List (List Cell)) : List (List Cell) :=
  if df.isEmpty then df
  else (df.dropLast.filter (fun r => !rowBlank r)) ++ [df.getLastD []]

/-! Helper lemmas about the aggregation stage. -/

lemma groupSum_keys (l : List α) (key : α → String) (m : α → Int) :
    (groupSum l key m).map Prod.fst
      = List.insertionSort (fun a b => strLe a b = true) ((l.map key).dedup) := by
  simp only [groupSum, List.map_map]
  have h : (Prod.fst ∘ fun k => (k, ((l.filter (fun x => key x == k)).map m).sum))
      = fun k : String => k := rfl
  rw [h]; simp

lemma groupSum_keys_perm (l : List α) (key : α → String) (m : α → Int) :
    ((groupSum l key m).map Prod.fst).Perm ((l.map key).dedup) := by
  rw [groupSum_keys]; exact List.perm_insertionSort _ _

lemma groupSum_keys_nodup (l : List α) (key : α → String) (m : α → Int) :
    ((groupSum l key m).map Prod.fst).Nodup :=
  ((groupSum_keys_perm l key m).nodup_iff).mpr (List.nodup_dedup _)

lemma mem_groupSum_keys (l : List α) (key : α → String) (m : α → Int) (c : String) :
    c ∈ (groupSum l key m).map Prod.fst ↔ c ∈ l.map key := by
  rw [(groupSum_keys_perm l key m).mem_iff, List.mem_dedup]

lemma groupSum_length (l : List α) (key : α → String) (m : α → Int) :
    (groupSum l key m).length = (l.map key).dedup.length := by
  simp [groupSum]

lemma sum_map_ite_zero (ks : List String) (a : String) (hnot : a ∉ ks) (c : Int) :
    (ks.map (fun k => if a = k then c else 0)).sum = 0 := by
  induction ks with
  | nil => rfl
  | cons k ks ih =>
    have h1 : a ≠ k := fun h => hnot (h ▸ List.mem_cons_self k ks)
    have h2 : a ∉ ks := fun h => hnot (List.mem_cons_of_mem _ h)
    simp [h1, ih h2]

lemma sum_map_ite_eq (K : List String) (hnd : K.Nodup) (a : String) (ha : a ∈ K) (c : Int) :
    (K.map (fun k => if a = k then c else 0)).sum = c := by
  induction K with
  | nil => cases ha
  | cons k ks ih =>
    rcases List.mem_cons.mp ha with h | h
    · subst h
      have hnot : a ∉ ks := (List.nodup_cons.mp hnd).1
      simp [sum_map_ite_zero ks a hnot c]
    · have hne : a ≠ k := by
        rintro rfl; exact (List.nodup_cons.mp hnd).1 h
      simp [hne, ih (List.nodup_cons.mp hnd).2 h]

lemma sum_map_add_split (K : List String) (f g : String → Int) :
    (K.map (fun k => f k + g k)).sum = (K.map f).sum + (K.map g).sum := by
  induction K with
  | nil => rfl
  | cons k ks ih => simp [ih]; ring

lemma sum_filter_groups (key : α → String) (m : α → Int) (K : List String) (hnd : K.Nodup)
    (l : List α) (hcov : ∀ x ∈ l, key x ∈ K) :
    (K.map (fun k => ((l.filter (fun x => key x == k)).map m).sum)).sum = (l.map m).sum := by
  induction l with
  | nil =>
    have : ∀ k : String, (([] : List α).filter (fun x => key x == k)).map m = [] := by
      intro k; rfl
    simp
  | cons x xs ih =>
    have hx : key x ∈ K := hcov x (List.mem_cons_self _ _)
    have hxs : ∀ y ∈ xs, key y ∈ K := fun y hy => hcov y (List.mem_cons_of_mem _ hy)
    have hsplit : ∀ k : String,
        (((x :: xs).filter (fun y => key y == k)).map m).sum
          = (if key x = k then m x else 0) + ((xs.filter (fun y => key y == k)).map m).sum := by
      intro k
      by_cases h : key x = k
      · simp [List.filter_cons, h]
      · simp [List.filter_cons, h]
    calc (K.map (fun k => (((x :: xs).filter (fun y => key y == k)).map m).sum)).sum
        = (K.map (fun k => (if key x = k then m x else 0)
            + ((xs.filter (fun y => key y == k)).map m).sum)).sum := by
          simp only [hsplit]
      _ = (K.map (fun k => if key x = k then m x else 0)).sum
            + (K.map (fun k => ((xs.filter (fun y => key y == k)).map m).sum)).sum :=
          sum_map_add_split K _ _
      _ = m x + ((xs.map m).sum) := by rw [sum_map_ite_eq K hnd _ hx, ih hxs]
      _ = ((x :: xs).map m).sum := by simp

lemma groupSum_measure_sum (l : List α) (key : α → String) (m : α → Int) :
    ((groupSum l key m).map Prod.snd).sum = (l.map m).sum := by
  have h1 : (groupSum l key m).map Prod.snd
      = (List.insertionSort (fun a b => strLe a b = true) ((l.map key).dedup)).map
          (fun k => ((l.filter (fun x => key x == k)).map m).sum) := by
    simp [groupSum, List.map_map, Function.comp]
  rw [h1]
  have hperm := (List.perm_insertionSort (fun a b : String => strLe a b = true) ((l.map key).dedup)).map
    (fun k => ((l.filter (fun x => key x == k)).map m).sum)
  rw [hperm.sum_eq]
  exact sum_filter_groups key m _ (List.nodup_dedup _) l
    (fun x hx => List.mem_dedup.mpr (List.mem_map_of_mem key hx))

lemma mapLookup_eq_none (tbl : List (String × Int)) (k : String)
    (h : k ∉ tbl.map Prod.fst) : mapLookup tbl k = none := by
  induction tbl with
  | nil => rfl
  | cons p t ih =>
    have h1 : p.1 ≠ k := by
      intro he; exact h (he ▸ List.mem_map_of_mem Prod.fst (List.mem_cons_self p t))
    have h2 : k ∉ t.map Prod.fst := fun hm => h (List.mem_cons_of_mem _ hm)
    simp [mapLookup, List.find?_cons, h1] at *
    exact ih h2

lemma sum_lookup (keys : List String) (hnd : keys.Nodup) (tbl : List (String × Int))
    (htn : (tbl.map Prod.fst).Nodup) (hsub : ∀ p ∈ tbl, p.1 ∈ keys) :
    (keys.map (fun k => (mapLookup tbl k).getD 0)).sum = (tbl.map Prod.snd).sum := by
  induction tbl with
  | nil =>
    have : ∀ k : String, (mapLookup ([] : List (String × Int)) k).getD 0 = (0 : Int) := by
      intro k; rfl
    simp [this]
  | cons p t ih =>
    obtain ⟨k0, v0⟩ := p
    have hk0 : k0 ∉ t.map Prod.fst := by
      have := (List.nodup_cons.mp htn).1; simpa using this
    have ht : (t.map Prod.fst).Nodup := by
      have := (List.nodup_cons.mp htn).2; simpa using this
    have hpt : ∀ q ∈ t, q.1 ∈ keys := fun q hq => hsub q (List.mem_cons_of_mem _ hq)
    have hk0mem : k0 ∈ keys := hsub (k0, v0) (List.mem_cons_self _ _)
    have hpoint : ∀ k, (mapLookup ((k0, v0) :: t) k).getD 0
        = (if k0 = k then v0 else 0) + (mapLookup t k).getD 0 := by
      intro k
      by_cases h : k0 = k
      · subst h
        have hnone : mapLookup t k0 = none := mapLookup_eq_none t k0 hk0
        have hfind : t.find? (fun p => p.1 == k0) = none := by
          simpa [mapLookup] using hnone
        simp [mapLookup, List.find?_cons, hfind]
      · simp [mapLookup, List.find?_cons, h]
    simp only [hpoint]
    rw [sum_map_add_split keys _ _, sum_map_ite_eq keys hnd k0 hk0mem v0, ih ht hpt]
    simp

/-! Helper lemmas about the merge, enrichment and sorting stages. -/

lemma workTable_salesSum (s : List OrderRec) (i : List InvRec)
    (hcov : ∀ p ∈ salesAgg s, p.1 ∈ (invAgg i).map Prod.fst) :
    ((workTable s i).map (fun w => w.salesQty)).sum = ((salesAgg s).map Prod.snd).sum := by
  have h1 : (workTable s i).map (fun w => w.salesQty)
      = ((invAgg i).map Prod.fst).map (fun k => (mapLookup (salesAgg s) k).getD 0) := by
    simp [workTable, List.map_map, Function.comp]
  rw [h1]
  exact sum_lookup _ (groupSum_keys_nodup _ _ _) _ (groupSum_keys_nodup _ _ _) hcov

lemma enrichRow_sku (pm : MasterTable) (w : WorkRow) : (enrichRow pm w).sku = w.sku := by
  cases h : pmSkuCol pm.headers <;> simp [enrichRow, h]

lemma enrichRow_invQty (pm : MasterTable) (w : WorkRow) : (enrichRow pm w).invQty = w.invQty := by
  cases h : pmSkuCol pm.headers <;> simp [enrichRow, h]

lemma enrichRow_salesQty (pm : MasterTable) (w : WorkRow) :
    (enrichRow pm w).salesQty = w.salesQty := by
  cases h : pmSkuCol pm.headers <;> simp [enrichRow, h]

lemma sortedRows_perm (s : List OrderRec) (i : List InvRec) (pm : MasterTable) :
    (sortedRows s i pm).Perm ((workTable s i).map (enrichRow pm)) :=
  List.perm_insertionSort _ _

lemma sortedRows_salesSum (s : List OrderRec) (i : List InvRec) (pm : MasterTable) :
    ((sortedRows s i pm).map (fun r => r.salesQty)).sum
      = ((workTable s i).map (fun w => w.salesQty)).sum := by
  rw [((sortedRows_perm s i pm).map (fun r => r.salesQty)).sum_eq, List.map_map]
  exact congrArg List.sum
    (List.map_congr_left (fun w _ => enrichRow_salesQty pm w))

lemma sortedRows_length (s : List OrderRec) (i : List InvRec) (pm : MasterTable) :
    (sortedRows s i pm).length = (workTable s i).length := by
  rw [sortedRows, List.length_insertionSort, List.length_map]

/-! Helper lemmas about column resolution and the final column list. -/

lemma sku_mem_enrichCols (pm : MasterTable) : "sku" ∈ enrichCols pm := by
  cases h : pmSkuCol pm.headers <;> simp [enrichCols, h]

lemma invQty_mem_enrichCols (pm : MasterTable) : "Inventory QTY" ∈ enrichCols pm := by
  cases h : pmSkuCol pm.headers <;> simp [enrichCols, h]

lemma salesQty_mem_enrichCols (pm : MasterTable) : "Sales QTY" ∈ enrichCols pm := by
  cases h : pmSkuCol pm.headers <;> simp [enrichCols, h]

lemma cp_mem_enrichCols_iff (pm : MasterTable) :
    "CP" ∈ enrichCols pm ↔ cpResolved pm = true := by
  unfold enrichCols cpResolved
  cases h1 : pmSkuCol pm.headers
  · simp
  · cases h2 : pmManagerCol pm.headers <;> cases h3 : pmBrandCol pm.headers <;>
      cases h4 : pmProductCol pm.headers <;> cases h5 : pmFnsCol pm.headers <;>
      cases h6 : pmVendorCol pm.headers <;> cases h7 : pmCpCol pm.headers <;> simp

lemma mem_finalCols_iff (pm : MasterTable) (c : String) :
    c ∈ finalCols pm ↔ c ∈ FINAL_COLS ∧ c ∈ enrichCols pm := by
  simp [finalCols, List.mem_filter]

lemma sku_mem_finalCols (pm : MasterTable) : "sku" ∈ finalCols pm :=
  (mem_finalCols_iff pm _).mpr ⟨by decide, sku_mem_enrichCols pm⟩

lemma invQty_mem_finalCols (pm : MasterTable) : "Inventory QTY" ∈ finalCols pm :=
  (mem_finalCols_iff pm _).mpr ⟨by decide, invQty_mem_enrichCols pm⟩

lemma salesQty_mem_finalCols (pm : MasterTable) : "Sales QTY" ∈ finalCols pm :=
  (mem_finalCols_iff pm _).mpr ⟨by decide, salesQty_mem_enrichCols pm⟩

lemma cp_mem_finalCols_iff (pm : MasterTable) :
    "CP" ∈ finalCols pm ↔ cpResolved pm = true := by
  rw [mem_finalCols_iff]
  constructor
  · intro h; exact (cp_mem_enrichCols_iff pm).mp h.2
  · intro h; exact ⟨by decide, (cp_mem_enrichCols_iff pm).mpr h⟩

lemma capq_not_mem_finalCols (pm : MasterTable) : "CP As Per Qty" ∉ finalCols pm := by
  intro h
  have h1 : "CP As Per Qty" ∈ FINAL_COLS := List.mem_of_mem_filter h
  exact absurd h1 (by decide)

/-! Helper lemmas about cell extraction. -/

lemma find?_zip_self_map (cols : List String) (f : String → Cell) (c : String) (hc : c ∈ cols) :
    (cols.zip (cols.map f)).find? (fun p => p.1 == c) = some (c, f c) := by
  induction cols with
  | nil => cases hc
  | cons c0 cs ih =>
    by_cases h : c0 = c
    · subst h; simp [List.find?_cons]
    · have hcs : c ∈ cs := by
        rcases List.mem_cons.mp hc with h' | h'
        · exact absurd h'.symm h
        · exact h'
      have hb : (c0 == c) = false := by simp [h]
      simp [List.find?_cons, hb, ih hcs]

lemma getCell_mapf (cols : List String) (f : String → Cell) (c : String) (hc : c ∈ cols) :
    getCell cols (cols.map f) c = f c := by
  simp [getCell, find?_zip_self_map cols f c hc]

lemma getCell_mapf_append (cols : List String) (f : String → Cell) (c : String)
    (hc : c ∈ cols) (ext : List String) (extv : List Cell) :
    getCell (cols ++ ext) (cols.map f ++ extv) c = f c := by
  have hz : (cols ++ ext).zip (cols.map f ++ extv) = cols.zip (cols.map f) ++ ext.zip extv :=
    List.zip_append (by simp)
  simp [getCell, hz, List.find?_append, find?_zip_self_map cols f c hc, Option.or]

lemma getCell_append_capq (cols : List String) (row : List Cell) (x : Cell)
    (hlen : cols.length = row.length) (hnot : "CP As Per Qty" ∉ cols) :
    getCell (cols ++ ["CP As Per Qty"]) (row ++ [x]) "CP As Per Qty" = x := by
  have hz : (cols ++ ["CP As Per Qty"]).zip (row ++ [x])
      = cols.zip row ++ (["CP As Per Qty"].zip [x]) := List.zip_append hlen
  have hfst : (cols.zip row).find? (fun p => p.1 == "CP As Per Qty") = none := by
    rw [List.find?_eq_none]
    intro p hp hb
    have h1 : p.1 ∈ cols := by
      obtain ⟨a, b⟩ := p
      exact (List.of_mem_zip hp).1
    have h2 : p.1 = "CP As Per Qty" := by simpa using hb
    exact hnot (h2 ▸ h1)
  simp [getCell, hz, List.find?_append, hfst, List.find?_cons]

/-! Helper lemmas about the assembled report. -/

lemma intCast_listSum (l : List Int) :
    ((l.sum : Int) : Rat) = (l.map (fun n : Int => (n : Rat))).sum := by
  induction l with
  | nil => simp
  | cons x xs ih => simp [ih]

lemma intTrunc_intCast (n : Int) : intTrunc (n : Rat) = n := by
  simp [intTrunc, Rat.num_intCast, Rat.den_intCast, Int.tdiv_one]

lemma cellRat_int (n : Int) : cellRat (.int n) = (n : Rat) := rfl

lemma cellRat_rat (q : Rat) : cellRat (.rat q) = q := rfl

lemma successReport_cols (s : List OrderRec) (i : List InvRec) (pm : MasterTable) :
    (successReport s i pm).cols = finalCols pm ++ ["CP As Per Qty"] := rfl

lemma successReport_rows (s : List OrderRec) (i : List InvRec) (pm : MasterTable) :
    (successReport s i pm).rows
      = ((sortedRows s i pm).map
          (fun r => (finalCols pm).map (fun c => ERow.cellOf r c))).map
            (fun row => row ++ [cpqCell (finalCols pm) row])
        ++ [(finalCols pm).map (fun c => totalCell (sortedRows s i pm) c)
              ++ [cpqCell (finalCols pm)
                    ((finalCols pm).map (fun c => totalCell (sortedRows s i pm) c))]] := by
  simp [successReport]

lemma successReport_lastRow (s : List OrderRec) (i : List InvRec) (pm : MasterTable) :
    lastRowOf (successReport s i pm)
      = (finalCols pm).map (fun c => totalCell (sortedRows s i pm) c)
        ++ [cpqCell (finalCols pm)
              ((finalCols pm).map (fun c => totalCell (sortedRows s i pm) c))] := by
  rw [lastRowOf, successReport_rows, List.getLastD_concat]

lemma successReport_dataRows (s : List OrderRec) (i : List InvRec) (pm : MasterTable) :
    (successReport s i pm).rows.dropLast
      = ((sortedRows s i pm).map
          (fun r => (finalCols pm).map (fun c => ERow.cellOf r c))).map
            (fun row => row ++ [cpqCell (finalCols pm) row]) := by
  rw [successReport_rows, List.dropLast_concat]

lemma pipelineOk (s : List OrderRec) (i : List InvRec) (pm : MasterTable)
    (hcp : cpResolved pm = true) :
    process_inventory_data s i pm = .ok (successReport s i pm) := by
  have h : "CP" ∈ finalCols pm := (cp_mem_finalCols_iff pm).mpr hcp
  simp [process_inventory_data, h]

lemma reportOf_pipeline (s : List OrderRec) (i : List InvRec) (pm : MasterTable)
    (hcp : cpResolved pm = true) :
    reportOf (process_inventory_data s i pm) = successReport s i pm := by
  rw [pipelineOk s i pm hcp]; rfl

lemma successReport_total_cell (s : List OrderRec) (i : List InvRec) (pm : MasterTable)
    (c : String) (hc : c ∈ finalCols pm) :
    getCell (successReport s i pm).cols (lastRowOf (successReport s i pm)) c
      = totalCell (sortedRows s i pm) c := by
  rw [successReport_cols, successReport_lastRow]
  exact getCell_mapf_append _ _ _ hc _ _

lemma successReport_total_capq (s : List OrderRec) (i : List InvRec) (pm : MasterTable) :
    getCell (successReport s i pm).cols (lastRowOf (successReport s i pm)) "CP As Per Qty"
      = cpqCell (finalCols pm)
          ((finalCols pm).map (fun c => totalCell (sortedRows s i pm) c)) := by
  rw [successReport_cols, successReport_lastRow]
  exact getCell_append_capq _ _ _ (by simp) (capq_not_mem_finalCols pm)

lemma totalCell_inv (L : List ERow) :
    totalCell L "Inventory QTY" = .int ((L.map (fun r => r.invQty)).sum) := by
  simp [totalCell]

lemma totalCell_sales (L : List ERow) :
    totalCell L "Sales QTY" = .int ((L.map (fun r => r.salesQty)).sum) := by
  simp [totalCell]

lemma totalCell_cp (L : List ERow) :
    totalCell L "CP" = .rat ((intTrunc ((L.map (fun r => r.cp)).sum) : Int) : Rat) := by
  simp [totalCell]

lemma cellOf_inv (r : ERow) : r.cellOf "Inventory QTY" = .int r.invQty := by
  simp [ERow.cellOf]

lemma cellOf_sales (r : ERow) : r.cellOf "Sales QTY" = .int r.salesQty := by
  simp [ERow.cellOf]

lemma cellOf_cp (r : ERow) : r.cellOf "CP" = .rat r.cp := by
  simp [ERow.cellOf]

lemma cpqCell_mapped_row (pm : MasterTable) (hcp : "CP" ∈ finalCols pm)
    (f : String → Cell) :
    cpqCell (finalCols pm) ((finalCols pm).map f)
      = .rat (cellRat (f "CP") * cellRat (f "Sales QTY")) := by
  rw [cpqCell, getCell_mapf _ _ _ hcp, getCell_mapf _ _ _ (salesQty_mem_finalCols pm)]

lemma dataColSum_eq (s : List OrderRec) (i : List InvRec) (pm : MasterTable)
    (c : String) (hc : c ∈ finalCols pm) :
    dataColSum (successReport s i pm) c
      = ((sortedRows s i pm).map (fun r => cellRat (ERow.cellOf r c))).sum := by
  rw [dataColSum, successReport_dataRows, successReport_cols, List.map_map, List.map_map]
  refine congrArg List.sum (List.map_congr_left (fun r _ => ?_))
  simp only [Function.comp]
  rw [getCell_mapf_append _ _ _ hc]

lemma dataColSum_capq (s : List OrderRec) (i : List InvRec) (pm : MasterTable)
    (hcp : "CP" ∈ finalCols pm) :
    dataColSum (successReport s i pm) "CP As Per Qty"
      = ((sortedRows s i pm).map (fun r => r.cp * (r.salesQty : Rat))).sum := by
  rw [dataColSum, successReport_dataRows, successReport_cols, List.map_map, List.map_map]
  refine congrArg List.sum (List.map_congr_left (fun r _ => ?_))
  simp only [Function.comp]
  rw [getCell_append_capq _ _ _ (by simp) (capq_not_mem_finalCols pm),
    cpqCell_mapped_row pm hcp, cellOf_cp, cellOf_sales]
  simp [cellRat]

/-! The claim theorems. -/

/-- C2: with a master table in which no column matches any role heuristic,
process_inventory_data does not return a report: line 181 reads the CP
column that was never created and the run raises KeyError.  The claim
(report produced with only sku / Inventory QTY / Sales QTY, run does not
fail) describes the evident intent of the conditional column handling of
lines 122-154, so the code, not the claim, is at fault; this theorem
evaluates the code at the failing input. -/
theorem C2_cp_keyerror :
    process_inventory_data [] [⟨"A1", 5⟩] mtNoRoles = .error "KeyError: CP" := by
  rfl

/-- C7: the Cleaner is idempotent — for every frame, cleaning twice equals
cleaning once. -/
theorem C7_cleaner_idempotent (df : List (List Cell)) :
    remove_blank_rows (remove_blank_rows df) = remove_blank_rows df := by
  by_cases h : df.isEmpty
  · simp [remove_blank_rows, h]
  · have h1 : remove_blank_rows df
        = df.dropLast.filter (fun r => !rowBlank r) ++ [df.getLastD []] := by
      simp [remove_blank_rows, h]
    have hne : ((df.dropLast.filter (fun r => !rowBlank r) ++ [df.getLastD []]).isEmpty)
        = false := by simp
    rw [h1, remove_blank_rows, hne]
    simp only [Bool.false_eq_true, if_false]
    rw [List.dropLast_concat, List.getLastD_concat, List.filter_filter]
    congr 1
    exact List.filter_congr (fun x _ => by cases rowBlank x <;> rfl)

/-- C8: the Cleaner never removes the trailing total row, whatever its
cells hold (blank cells included), and that row stays last: cleaning
rows ++ [total] filters only the leading rows and reattaches total at the
end. -/
theorem C8_cleaner_preserves_totalrow (rows : List (List Cell)) (total : List Cell) :
    remove_blank_rows (rows ++ [total])
        = rows.filter (fun r => !rowBlank r) ++ [total]
    ∧ (remove_blank_rows (rows ++ [total])).getLast? = some total := by
  have hne : ((rows ++ [total]).isEmpty) = false := by simp
  have h1 : remove_blank_rows (rows ++ [total])
      = rows.filter (fun r => !rowBlank r) ++ [total] := by
    rw [remove_blank_rows, hne]
    simp only [Bool.false_eq_true, if_false]
    rw [List.dropLast_concat, List.getLastD_concat]
  exact ⟨h1, by rw [h1, List.getLast?_concat]⟩

/-- C10: the enrichment step only adds columns — it preserves the sku,
Inventory QTY and Sales QTY values of every working-table row, and the row
count, whether or not any role resolves and whether or not a row matches
the master table. -/
theorem C10_enrichment_frame (pm : MasterTable) (work : List WorkRow) :
    (work.map (enrichRow pm)).map (fun r => (r.sku, r.invQty, r.salesQty))
        = work.map (fun w => (w.sku, w.invQty, w.salesQty))
    ∧ (work.map (enrichRow pm)).length = work.length := by
  refine ⟨?_, by simp⟩
  rw [List.map_map]
  exact List.map_congr_left (fun w _ => by
    simp [Function.comp, enrichRow_sku, enrichRow_invQty, enrichRow_salesQty])

/-- C5: sales aggregation counts only orders whose Marketplace is the
literal "Flipkart" (filtering is what the aggregation starts from, so
pre-filtering is a no-op), and in spec Scenario 1 (Flipkart A1 x3,
Amazon A1 x100; inventory A1 x10) the report row for A1 carries
Sales QTY 3 and Inventory QTY 10. -/
theorem C5_flipkart_only_scenario1 :
    (∀ shipped : List OrderRec,
        salesAgg shipped
          = salesAgg (shipped.filter (fun o => o.marketplace == "Flipkart")))
    ∧ getCell (pipelineReport [⟨"Flipkart", "A1", 3⟩, ⟨"Amazon", "A1", 100⟩] [⟨"A1", 10⟩] mtCP).cols
        ((pipelineReport [⟨"Flipkart", "A1", 3⟩, ⟨"Amazon", "A1", 100⟩] [⟨"A1", 10⟩] mtCP).rows.getD 0 [])
        "Sales QTY" = Cell.int 3
    ∧ getCell (pipelineReport [⟨"Flipkart", "A1", 3⟩, ⟨"Amazon", "A1", 100⟩] [⟨"A1", 10⟩] mtCP).cols
        ((pipelineReport [⟨"Flipkart", "A1", 3⟩, ⟨"Amazon", "A1", 100⟩] [⟨"A1", 10⟩] mtCP).rows.getD 0 [])
        "Inventory QTY" = Cell.int 10 := by
  refine ⟨?_, by decide, by decide⟩
  intro shipped
  have h : (shipped.filter (fun o => o.marketplace == "Flipkart")).filter
        (fun o => o.marketplace == "Flipkart")
      = shipped.filter (fun o => o.marketplace == "Flipkart") := by
    rw [List.filter_filter]
    exact List.filter_congr (fun x _ => by cases (x.marketplace == "Flipkart") <;> rfl)
  rw [salesAgg, salesAgg, flipkartOrders, flipkartOrders, h]

/-- C4: the claim fails on the code — raw keys differing only by letter
case are not normalized identically anywhere and do not match in the
joins.  At sales SKU "A1" versus inventory sku "a1" (differing only by
case), the inventory-side normalization (backtick removal) and the
master-side normalization (strip) both keep them distinct, and the report
row shows Sales QTY 0 instead of the matched 3. -/
theorem C4_normalization_counterexample :
    stripStray "a1" ≠ stripStray "A1"
    ∧ trimStr "a1" ≠ trimStr "A1"
    ∧ getCell (pipelineReport [⟨"Flipkart", "A1", 3⟩] [⟨"a1", 10⟩] mtCP).cols
        ((pipelineReport [⟨"Flipkart", "A1", 3⟩] [⟨"a1", 10⟩] mtCP).rows.getD 0 [])
        "Sales QTY" = Cell.int 0
    ∧ Cell.int 0 ≠ Cell.int 3 := by
  refine ⟨by decide, by decide, by decide, by decide⟩

/-- C4 (amended): the only normalizations are backtick removal on the
inventory key and whitespace stripping on both sides of the master join.
Keys differing only by backticks collapse on the inventory side (and then
match a raw sales SKU), and a master key differing from an inventory key
only by surrounding whitespace still enriches that row; case is never
folded and sales keys are joined raw. -/
theorem C4_normalization_amended :
    (∀ s : String, stripStray (String.mk (Char.ofNat 96 :: s.data)) = stripStray s)
    ∧ (∀ s : String, stripStray (String.mk (s.data ++ [Char.ofNat 96])) = stripStray s)
    ∧ getCell (pipelineReport [⟨"Flipkart", "A1", 3⟩] [⟨"A\x601", 10⟩] mtCP).cols
        ((pipelineReport [⟨"Flipkart", "A1", 3⟩] [⟨"A\x601", 10⟩] mtCP).rows.getD 0 [])
        "Sales QTY" = Cell.int 3
    ∧ getCell (pipelineReport [] [⟨"A1", 5⟩] mtBrandWs).cols
        ((pipelineReport [] [⟨"A1", 5⟩] mtBrandWs).rows.getD 0 [])
        "Brand" = Cell.str "X" := by
  have h96 : ((Char.ofNat 96).toNat != 96) = false := by decide
  refine ⟨?_, ?_, by decide, by decide⟩
  · intro s; simp [stripStray, List.filter_cons, h96]
  · intro s; simp [stripStray, List.filter_append, h96]

/-- C6: master-table deduplication keeps the first occurrence per SKU in
source order — in spec Scenario 2 the report's single A1 row carries the
first-encountered Brand "X" — and for every input the number of non-total
report rows never exceeds the number of distinct normalized inventory
keys. -/
theorem C6_dedup_first_wins_and_row_bound :
    ((pipelineReport [] [⟨"A1", 1⟩, ⟨"A2", 2⟩] mtBrandDup).rows.dropLast.filter
        (fun row => decide (getCell (pipelineReport [] [⟨"A1", 1⟩, ⟨"A2", 2⟩] mtBrandDup).cols
          row "sku" = Cell.str "A1"))).length = 1
    ∧ getCell (pipelineReport [] [⟨"A1", 1⟩, ⟨"A2", 2⟩] mtBrandDup).cols
        ((pipelineReport [] [⟨"A1", 1⟩, ⟨"A2", 2⟩] mtBrandDup).rows.getD 0 [])
        "Brand" = Cell.str "X"
    ∧ ∀ (s : List OrderRec) (i : List InvRec) (pm : MasterTable),
        (pipelineReport s i pm).rows.dropLast.length
          ≤ ((invNormalized i).map (fun r => r.sku)).dedup.length := by
  refine ⟨by decide, by decide, ?_⟩
  intro s i pm
  by_cases hcp : cpResolved pm = true
  · rw [pipelineReport, reportOf_pipeline s i pm hcp, successReport_dataRows]
    simp only [List.length_map]
    rw [sortedRows_length, workTable, List.length_map]
    exact le_of_eq (groupSum_length _ _ _)
  · have hmem : "CP" ∉ finalCols pm := fun hm => hcp ((cp_mem_finalCols_iff pm).mp hm)
    have herr : process_inventory_data s i pm = .error "KeyError: CP" := by
      simp [process_inventory_data, hmem]
    simp [pipelineReport, herr, reportOf]

/-- C1: the claim fails on the code — with a Flipkart order for SKU "B"
that is absent from inventory, the aggregator's output measure sums to 5
while the Grand Total row's Sales QTY is 0, so conservation of totals does
not hold when sold SKUs are missing from inventory (the report is
inventory-anchored and drops them). -/
theorem C1_conservation_counterexample :
    getCell (pipelineReport [⟨"Flipkart", "B", 5⟩] [⟨"A", 10⟩] mtCP).cols
        (lastRowOf (pipelineReport [⟨"Flipkart", "B", 5⟩] [⟨"A", 10⟩] mtCP)) "Sales QTY"
      = Cell.int 0
    ∧ ((salesAgg [⟨"Flipkart", "B", 5⟩]).map Prod.snd).sum = 5
    ∧ Cell.int 0 ≠ Cell.int 5 := by
  refine ⟨by decide, by decide, by decide⟩

/-- C1 (amended): whenever the run produces a report (the CP column
resolves) and every SKU of the sales aggregate occurs among the aggregated
inventory keys, the Grand Total row's Sales QTY equals the sum of the
sales aggregator's output measure. -/
theorem C1_total_sales_conservation (shipped : List OrderRec) (inv : List InvRec)
    (pm : MasterTable) (hcp : cpResolved pm = true)
    (hcov : ∀ p ∈ salesAgg shipped, p.1 ∈ (invAgg inv).map Prod.fst) :
    getCell (pipelineReport shipped inv pm).cols
        (lastRowOf (pipelineReport shipped inv pm)) "Sales QTY"
      = Cell.int (((salesAgg shipped).map Prod.snd).sum) := by
  rw [pipelineReport, reportOf_pipeline _ _ _ hcp,
    successReport_total_cell _ _ _ _ (salesQty_mem_finalCols pm), totalCell_sales]
  congr 1
  rw [sortedRows_salesSum, workTable_salesSum _ _ hcov]

/-- C1 (witness): the amended conservation theorem applied at a concrete
run in which the sold SKU is present in inventory. -/
theorem C1_total_sales_conservation_witness :
    cpResolved mtCP = true
    ∧ getCell (pipelineReport [⟨"Flipkart", "A1", 3⟩] [⟨"A1", 10⟩] mtCP).cols
        (lastRowOf (pipelineReport [⟨"Flipkart", "A1", 3⟩] [⟨"A1", 10⟩] mtCP)) "Sales QTY"
      = Cell.int (((salesAgg [⟨"Flipkart", "A1", 3⟩]).map Prod.snd).sum) :=
  ⟨by decide, C1_total_sales_conservation _ _ _ (by decide) (by decide)⟩

/-- C3: the claim fails on the code — the Grand Total row's CP As Per Qty
is computed at line 181 from the already-totalled CP and Sales QTY cells,
i.e. it is (total CP) x (total Sales QTY), not the sum of the per-row
CP As Per Qty values.  With two rows of CP 1 and Sales QTY 1 the total
cell holds 4 while the column sums to 2. -/
theorem C3_totalrow_counterexample :
    totalVal (pipelineReport [⟨"Flipkart", "A", 1⟩, ⟨"Flipkart", "B", 1⟩]
        [⟨"A", 1⟩, ⟨"B", 1⟩] mtCPunit) "CP As Per Qty"
      ≠ dataColSum (pipelineReport [⟨"Flipkart", "A", 1⟩, ⟨"Flipkart", "B", 1⟩]
        [⟨"A", 1⟩, ⟨"B", 1⟩] mtCPunit) "CP As Per Qty" := by
  have hcpm : "CP" ∈ finalCols mtCPunit := by decide
  have hrep : pipelineReport [⟨"Flipkart", "A", 1⟩, ⟨"Flipkart", "B", 1⟩]
      [⟨"A", 1⟩, ⟨"B", 1⟩] mtCPunit
      = successReport [⟨"Flipkart", "A", 1⟩, ⟨"Flipkart", "B", 1⟩]
        [⟨"A", 1⟩, ⟨"B", 1⟩] mtCPunit := by
    rw [pipelineReport, reportOf_pipeline _ _ _ (by decide)]
  have hsort : sortedRows [⟨"Flipkart", "A", 1⟩, ⟨"Flipkart", "B", 1⟩]
      [⟨"A", 1⟩, ⟨"B", 1⟩] mtCPunit
      = [⟨"A", 1, 1, none, none, none, none, none, 1⟩,
         ⟨"B", 1, 1, none, none, none, none, none, 1⟩] := by decide
  rw [hrep, totalVal, successReport_total_capq, cpqCell_mapped_row _ hcpm, cellRat_rat,
    totalCell_cp, totalCell_sales, cellRat_rat, cellRat_int,
    dataColSum_capq _ _ _ hcpm, hsort]
  norm_num [intTrunc, Rat.num_ofNat, Rat.den_ofNat, Int.tdiv_one]

/-- C3 (amended): in every report the run produces, the Grand Total row's
Inventory QTY and Sales QTY equal the column-wise sums over the non-total
rows; its CP field equals the integer truncation of the CP column sum (the
int() applied at line 165); and its CP As Per Qty field equals the product
of the totalled CP and Sales QTY cells rather than the sum of the per-row
products. -/
theorem C3_totalrow_sums (shipped : List OrderRec) (inv : List InvRec)
    (pm : MasterTable) (hcp : cpResolved pm = true) :
    totalVal (pipelineReport shipped inv pm) "Inventory QTY"
        = dataColSum (pipelineReport shipped inv pm) "Inventory QTY"
    ∧ totalVal (pipelineReport shipped inv pm) "Sales QTY"
        = dataColSum (pipelineReport shipped inv pm) "Sales QTY"
    ∧ totalVal (pipelineReport shipped inv pm) "CP"
        = ((intTrunc (dataColSum (pipelineReport shipped inv pm) "CP") : Int) : Rat)
    ∧ totalVal (pipelineReport shipped inv pm) "CP As Per Qty"
        = totalVal (pipelineReport shipped inv pm) "CP"
          * totalVal (pipelineReport shipped inv pm) "Sales QTY" := by
  have hcpm : "CP" ∈ finalCols pm := (cp_mem_finalCols_iff pm).mpr hcp
  have hrep : pipelineReport shipped inv pm = successReport shipped inv pm := by
    rw [pipelineReport, reportOf_pipeline _ _ _ hcp]
  rw [hrep]
  refine ⟨?_, ?_, ?_, ?_⟩
  · rw [totalVal, successReport_total_cell _ _ _ _ (invQty_mem_finalCols pm), totalCell_inv,
      cellRat_int, dataColSum_eq _ _ _ _ (invQty_mem_finalCols pm)]
    have h1 : (sortedRows shipped inv pm).map (fun r => cellRat (ERow.cellOf r "Inventory QTY"))
        = ((sortedRows shipped inv pm).map (fun r => r.invQty)).map (fun n : Int => (n : Rat)) := by
      rw [List.map_map]
      exact List.map_congr_left (fun r _ => by simp [Function.comp, cellOf_inv, cellRat_int])
    rw [h1, ← intCast_listSum]
  · rw [totalVal, successReport_total_cell _ _ _ _ (salesQty_mem_finalCols pm), totalCell_sales,
      cellRat_int, dataColSum_eq _ _ _ _ (salesQty_mem_finalCols pm)]
    have h1 : (sortedRows shipped inv pm).map (fun r => cellRat (ERow.cellOf r "Sales QTY"))
        = ((sortedRows shipped inv pm).map (fun r => r.salesQty)).map (fun n : Int => (n : Rat)) := by
      rw [List.map_map]
      exact List.map_congr_left (fun r _ => by simp [Function.comp, cellOf_sales, cellRat_int])
    rw [h1, ← intCast_listSum]
  · rw [totalVal, successReport_total_cell _ _ _ _ hcpm, totalCell_cp, cellRat_rat,
      dataColSum_eq _ _ _ _ hcpm]
    have hsum : ((sortedRows shipped inv pm).map (fun r => cellRat (ERow.cellOf r "CP"))).sum
        = ((sortedRows shipped inv pm).map (fun r => r.cp)).sum :=
      congrArg List.sum (List.map_congr_left (fun r _ => by simp [cellOf_cp, cellRat_rat]))
    rw [hsum]
  · rw [totalVal, successReport_total_capq, cpqCell_mapped_row _ hcpm, cellRat_rat,
      totalVal, successReport_total_cell _ _ _ _ hcpm,
      totalVal, successReport_total_cell _ _ _ _ (salesQty_mem_finalCols pm)]

/-- C3 (witness): the amended total-row theorem applied at the concrete
two-row run. -/
theorem C3_totalrow_sums_witness :
    cpResolved mtCPunit = true
    ∧ (totalVal (pipelineReport [⟨"Flipkart", "A", 1⟩, ⟨"Flipkart", "B", 1⟩]
          [⟨"A", 1⟩, ⟨"B", 1⟩] mtCPunit) "Inventory QTY"
        = dataColSum (pipelineReport [⟨"Flipkart", "A", 1⟩, ⟨"Flipkart", "B", 1⟩]
          [⟨"A", 1⟩, ⟨"B", 1⟩] mtCPunit) "Inventory QTY"
      ∧ totalVal (pipelineReport [⟨"Flipkart", "A", 1⟩, ⟨"Flipkart", "B", 1⟩]
          [⟨"A", 1⟩, ⟨"B", 1⟩] mtCPunit) "Sales QTY"
        = dataColSum (pipelineReport [⟨"Flipkart", "A", 1⟩, ⟨"Flipkart", "B", 1⟩]
          [⟨"A", 1⟩, ⟨"B", 1⟩] mtCPunit) "Sales QTY"
      ∧ totalVal (pipelineReport [⟨"Flipkart", "A", 1⟩, ⟨"Flipkart", "B", 1⟩]
          [⟨"A", 1⟩, ⟨"B", 1⟩] mtCPunit) "CP"
        = ((intTrunc (dataColSum (pipelineReport [⟨"Flipkart", "A", 1⟩, ⟨"Flipkart", "B", 1⟩]
          [⟨"A", 1⟩, ⟨"B", 1⟩] mtCPunit) "CP") : Int) : Rat)
      ∧ totalVal (pipelineReport [⟨"Flipkart", "A", 1⟩, ⟨"Flipkart", "B", 1⟩]
          [⟨"A", 1⟩, ⟨"B", 1⟩] mtCPunit) "CP As Per Qty"
        = totalVal (pipelineReport [⟨"Flipkart", "A", 1⟩, ⟨"Flipkart", "B", 1⟩]
          [⟨"A", 1⟩, ⟨"B", 1⟩] mtCPunit) "CP"
          * totalVal (pipelineReport [⟨"Flipkart", "A", 1⟩, ⟨"Flipkart", "B", 1⟩]
          [⟨"A", 1⟩, ⟨"B", 1⟩] mtCPunit) "Sales QTY") :=
  ⟨by decide, C3_totalrow_sums _ _ _ (by decide)⟩

end FlipkartQWTT
